import Mathlib

/-!
Verification of the streaming tool-call reassembly, name-mapping and
dispatch logic of the MCP CLI repository.

The definitions below are a shallow embedding of the Python code in
`diagnostics/streaming_tools_minimal.py` (streaming accumulator),
`diagnostics/chained_tools_diagnostic.py` (dispatch loop),
`diagnostics/cli_tools_diagnostic.py` (manual argument validation),
`diagnostics/conversation_tools_diagnostic.py` (tool-call structure fix
and validation), and `tests/mcp_cli/chat/test_chat_context.py` together
with the spec for the tool-catalog adapter.

JSON values are modelled by an inductive type `JsonVal`; `jsonLoads`
models Python's `json.loads` on the JSON fragment these scripts use
(objects, arrays, strings, numbers, booleans, null; parse errors are
`none`, and trailing non-whitespace input is an error, as in Python).
-/
/-- JSON values: the results of parsing `arguments_json` strings. -/
inductive JsonVal : Type where
  | null : JsonVal
  | boolean : Bool → JsonVal
  | num : Rat → JsonVal
  | str : String → JsonVal
  | arr : List JsonVal → JsonVal
  | obj : List (String × JsonVal) → JsonVal

/-- Whether a JSON value is an object (a Python mapping after parsing). -/
def JsonVal.isObj : JsonVal → Bool
  | .obj _ => true
  | _ => false

/-- Python truthiness of a parsed JSON value: `None`, `False`, `0`,
the empty string, the empty list and the empty dict are falsy. -/
def JsonVal.falsy : JsonVal → Bool
  | .null => true
  | .boolean b => !b
  | .num q => q == 0
  | .str s => s == ""
  | .arr xs => xs.isEmpty
  | .obj fs => fs.isEmpty

/-- Whether a parsed JSON value is a Python `str`. -/
def JsonVal.isStr : JsonVal → Bool
  | .str _ => true
  | _ => false

/-- First-match lookup in an association list of object fields
(Python `key in d` / `d[key]`). -/
def lookupField : List (String × JsonVal) → String → Option JsonVal
  | [], _ => none
  | (k, v) :: rest, key => if k = key then some v else lookupField rest key

/-- First-match lookup in a string-to-string association list
(Python `d.get(key)`). -/
def lookupStr : List (String × String) → String → Option String
  | [], _ => none
  | (k, v) :: rest, key => if k = key then some v else lookupStr rest key

/-- The JSON whitespace characters skipped by `json.loads`. -/
def isJsonWs (c : Char) : Bool :=
  c == ' ' || c == '\t' || c == '\n' || c == '\r'

/-- The characters Python's `str.strip()` removes (ASCII whitespace). -/
def isPyWs (c : Char) : Bool :=
  c == ' ' || c == '\t' || c == '\n' || c == '\r' || c == '\x0b' || c == '\x0c'

/-- Whether `s.strip()` is empty (falsy) in Python. -/
def strBlank (s : String) : Bool := s.data.all isPyWs

/-- Drop leading JSON whitespace. -/
def skipWs : List Char → List Char
  | [] => []
  | c :: cs => if isJsonWs c then skipWs cs else c :: cs

/-- The opening brace character, `\x7b`. -/
def lbrace : Char := Char.ofNat 123

/-- The closing brace character, `\x7d`. -/
def rbrace : Char := Char.ofNat 125

/-- The JSON string escape table: the letter after a backslash and the
character it decodes to. -/
def escTable : List (Char × Char) :=
  [('"', '"'), ('\\', '\\'), ('/', '/'), ('n', '\n'), ('t', '\t'),
   ('r', '\r'), ('b', Char.ofNat 8), ('f', Char.ofNat 12)]

/-- JSON string escapes understood by the parser model. -/
def escCharOf (c : Char) : Option Char :=
  (escTable.find? (fun p => p.1 == c)).map (fun p => p.2)

/-- Parse the body of a JSON string after the opening quote; returns the
decoded characters and the rest of the input after the closing quote. -/
def parseStrChars : List Char → Option (List Char × List Char)
  | [] => none
  | '"' :: cs => some ([], cs)
  | '\\' :: [] => none
  | '\\' :: e :: cs =>
    match escCharOf e with
    | none => none
    | some ec =>
      match parseStrChars cs with
      | none => none
      | some (acc, rest) => some (ec :: acc, rest)
  | c :: cs =>
    match parseStrChars cs with
    | none => none
    | some (acc, rest) => some (c :: acc, rest)

/-- The value of a digit character, if `c` is a decimal digit. -/
def digChar (c : Char) : Option Nat :=
  if c.isDigit then some (c.toNat - 48) else none

/-- Take a maximal run of decimal digits from the front of the input. -/
def takeDigits : List Char → List Nat × List Char
  | [] => ([], [])
  | c :: cs =>
    match digChar c with
    | some d =>
      let p := takeDigits cs
      (d :: p.1, p.2)
    | none => ([], c :: cs)

/-- Read a digit run as a natural number. -/
def digitsToNat (ds : List Nat) : Nat := ds.foldl (fun a d => a * 10 + d) 0

/-- Parse a JSON number (optional minus, integer part, optional
fraction, optional exponent) as a rational. -/
def parseNumber (cs : List Char) : Option (Rat × List Char) :=
  let p0 : Bool × List Char :=
    match cs with
    | '-' :: rest => (true, rest)
    | _ => (false, cs)
  let neg := p0.1
  let p1 := takeDigits p0.2
  if p1.1.isEmpty then none else
  let intPart : Rat := (digitsToNat p1.1 : Nat)
  let pf : Option (Rat × List Char) :=
    match p1.2 with
    | '.' :: rest =>
      let p2 := takeDigits rest
      if p2.1.isEmpty then none
      else some (intPart + (digitsToNat p2.1 : Rat) / ((10 : Rat) ^ p2.1.length), p2.2)
    | _ => some (intPart, p1.2)
  match pf with
  | none => none
  | some (mag, cs2) =>
    let pe : Option (Rat × List Char) :=
      match cs2 with
      | 'e' :: rest => some (0, rest)
      | 'E' :: rest => some (0, rest)
      | _ => none
    match pe with
    | none => some (if neg then -mag else mag, cs2)
    | some (_, rest) =>
      let p3 : Bool × List Char :=
        match rest with
        | '-' :: r2 => (true, r2)
        | '+' :: r2 => (false, r2)
        | _ => (false, rest)
      let p4 := takeDigits p3.2
      if p4.1.isEmpty then none
      else
        let e := digitsToNat p4.1
        let mag2 := if p3.1 then mag / ((10 : Rat) ^ e) else mag * ((10 : Rat) ^ e)
        some (if neg then -mag2 else mag2, p4.2)

/-- Whether the input starts with the given literal word. -/
def startsWithWord : List Char → List Char → Option (List Char)
  | [], cs => some cs
  | _, [] => none
  | w :: ws, c :: cs => if w == c then startsWithWord ws cs else none

mutual

/-- Fuel-indexed JSON value parsing: returns the value and the rest of the
input; `none` is a parse error (as raised by `json.loads`). -/
def parseVal : Nat → List Char → Option (JsonVal × List Char)
  | 0, _ => none
  | Nat.succ fuel, cs =>
    match skipWs cs with
    | [] => none
    | c :: cs1 =>
      if c == '"' then
        match parseStrChars cs1 with
        | none => none
        | some (a, r) => some (JsonVal.str (String.mk a), r)
      else if c == lbrace then
        match parseObjItems fuel (skipWs cs1) true with
        | none => none
        | some (fs, r) => some (JsonVal.obj fs, r)
      else if c == '[' then
        match parseArrItems fuel (skipWs cs1) true with
        | none => none
        | some (vs, r) => some (JsonVal.arr vs, r)
      else if c == 't' then
        match startsWithWord ['r', 'u', 'e'] cs1 with
        | some r => some (JsonVal.boolean true, r)
        | none => none
      else if c == 'f' then
        match startsWithWord ['a', 'l', 's', 'e'] cs1 with
        | some r => some (JsonVal.boolean false, r)
        | none => none
      else if c == 'n' then
        match startsWithWord ['u', 'l', 'l'] cs1 with
        | some r => some (JsonVal.null, r)
        | none => none
      else if c == '-' || c.isDigit then
        match parseNumber (c :: cs1) with
        | none => none
        | some (q, r) => some (JsonVal.num q, r)
      else none

/-- Parse the members of a JSON object after the opening brace (whitespace
already skipped); `first` is true before the first member. -/
def parseObjItems : Nat → List Char → Bool → Option (List (String × JsonVal) × List Char)
  | 0, _, _ => none
  | Nat.succ fuel, cs, first =>
    match cs with
    | [] => none
    | c :: cs1 =>
      if c == rbrace && first then some ([], cs1)
      else
        let body : List Char :=
          if first then c :: cs1
          else if c == ',' then skipWs cs1
          else []
        if !first && c != ',' then
          if c == rbrace then some ([], cs1) else none
        else
          match body with
          | [] => none
          | k :: ks =>
            if k == '"' then
              match parseStrChars ks with
              | none => none
              | some (key, r1) =>
                match skipWs r1 with
                | ':' :: r2 =>
                  match parseVal fuel r2 with
                  | none => none
                  | some (v, r3) =>
                    match parseObjItems fuel (skipWs r3) false with
                    | none => none
                    | some (fs, r4) => some ((String.mk key, v) :: fs, r4)
                | _ => none
            else none

/-- Parse the elements of a JSON array after the opening bracket (whitespace
already skipped); `first` is true before the first element. -/
def parseArrItems : Nat → List Char → Bool → Option (List JsonVal × List Char)
  | 0, _, _ => none
  | Nat.succ fuel, cs, first =>
    match cs with
    | [] => none
    | c :: cs1 =>
      if c == ']' && first then some ([], cs1)
      else if !first && c != ',' then
        if c == ']' then some ([], cs1) else none
      else
        let body : List Char := if first then c :: cs1 else skipWs cs1
        match parseVal fuel body with
        | none => none
        | some (v, r1) =>
          match parseArrItems fuel (skipWs r1) false with
          | none => none
          | some (vs, r2) => some (v :: vs, r2)

end

/-- Model of Python's `json.loads`: parse one JSON value and require only
whitespace after it ("Extra data" is an error). -/
def jsonLoads (s : String) : Option JsonVal :=
  match parseVal (2 * s.length + 4) s.data with
  | none => none
  | some (v, rest) => if (skipWs rest).isEmpty then some v else none

/-!
Streaming Response Collector: the tool-call accumulation loop of
`test_streaming_call` in `diagnostics/streaming_tools_minimal.py`
(lines 152-184). Each streamed chunk carries a list of tool-call
deltas; the loop processes deltas strictly in arrival order, so the
stream is modelled as the flattened list of deltas.
-/
/-- One streamed tool-call delta: the optional `"id"`, `"type"`,
`function.name` and `function.arguments` entries of the delta dict.
An absent `"function"` dict is the case where both fragments are
absent (the update branch then appends nothing, and the creation
branch uses `.get("name", "")` and `.get("arguments", "")`). -/
structure Delta where
  idKey : Option String
  typeKey : Option String
  nameFrag : Option String
  argsFrag : Option String
deriving DecidableEq, Repr

/-- One in-flight tool call accumulated by the loop: the dict
`{"id": ..., "type": ..., "function": {"name": ..., "arguments": ...}}`
appended to `tool_calls`. -/
structure AccCall where
  id : String
  ctype : String
  name : String
  args : String
deriving DecidableEq, Repr

/-- The synthetic identifier `f"unknown_{len(tool_calls)}"` used when a
delta carries no `"id"` key. -/
def unknownId (n : Nat) : String := "unknown_" ++ toString n

/-- Append a delta's fragments to the first accumulated call whose id
matches (the `existing` update branch of the loop). -/
def replaceFirst : List AccCall → String → Delta → List AccCall
  | [], _, _ => []
  | c :: cs, tcId, d =>
    if c.id = tcId then
      { c with
        name := c.name ++ (d.nameFrag.getD ""),
        args := c.args ++ (d.argsFrag.getD "") } :: cs
    else c :: replaceFirst cs tcId d

/-- Process one tool-call delta: find the existing call with the same id
and append the fragments, or append a new call (lines 154-184 of
`streaming_tools_minimal.py`). -/
def accStep (state : List AccCall) (d : Delta) : List AccCall :=
  let tcId := d.idKey.getD (unknownId state.length)
  if (state.find? (fun c => c.id = tcId)).isSome then
    replaceFirst state tcId d
  else
    state ++ [{ id := tcId,
                ctype := d.typeKey.getD "function",
                name := d.nameFrag.getD "",
                args := d.argsFrag.getD "" }]

/-- Accumulate a whole stream of deltas, starting from no tool calls. -/
def accumulate (ds : List Delta) : List AccCall := ds.foldl accStep []

/-- The finalized name and arguments buffers of the call with identifier
`X`, if the state holds such a call. -/
def bufsOf (state : List AccCall) (X : String) : Option (String × String) :=
  (state.find? (fun c => c.id = X)).map (fun c => (c.name, c.args))

/-- The name fragments delivered under identifier `X`, in arrival order
(an absent fragment contributes the empty string, as `.get("name", "")`
and the update branch do). -/
def fragsName (ds : List Delta) (X : String) : List String :=
  (ds.filter (fun d => d.idKey = some X)).map (fun d => d.nameFrag.getD "")

/-- The arguments fragments delivered under identifier `X`, in arrival
order. -/
def fragsArgs (ds : List Delta) (X : String) : List String :=
  (ds.filter (fun d => d.idKey = some X)).map (fun d => d.argsFrag.getD "")

/-- Concatenation of a list of string fragments in order. -/
def strConcat (l : List String) : String := l.foldr (fun a b => a ++ b) ""

/-!
Tool Call Dispatcher: the processing loop of
`_test_streaming_chain_simulation` (lines 215-271) and
`_test_malformed_streaming_arguments` (lines 301-342) in
`diagnostics/chained_tools_diagnostic.py`. The external tool executor
(`tool_manager.execute_tool`) is a parameter of the model.
-/
/-- The raw `function.arguments` value of a completed tool call as it
reaches the dispatch loop: a JSON-encoded string, Python `None`, or an
already-parsed dict. -/
inductive RawArgs : Type where
  | strv : String → RawArgs
  | nonev : RawArgs
  | objv : List (String × JsonVal) → RawArgs

/-- A completed tool call handed to the dispatcher: its `id`, its
LLM-facing `function.name`, and its raw arguments. -/
structure CompletedCall where
  id : String
  fname : String
  rawArgs : RawArgs

/-- The argument-parsing step of the dispatch loop (lines 229-236 and
314-320): a string parses as JSON unless blank (then `{}`), a
`JSONDecodeError` is caught and yields `{}`, `None` yields `{}`, and a
dict passes through (`raw_arguments or {}`). -/
def parseArgs : RawArgs → JsonVal
  | .strv s =>
    if strBlank s then JsonVal.obj []
    else
      match jsonLoads s with
      | some v => v
      | none => JsonVal.obj []
  | .nonev => JsonVal.obj []
  | .objv fs => JsonVal.obj fs

/-- The result the external tool executor reports for one call. -/
structure ExecResult where
  success : Bool
  result : Option JsonVal
  error : Option String

/-- The per-call trace the dispatch loop records (the fields of
`ChainedToolCallTrace` the claims concern): the resolved execution name,
the arguments actually passed to the executor, and the executor's
success, result and error. -/
structure Outcome where
  id : String
  execName : String
  argsPassed : JsonVal
  success : Bool
  result : Option JsonVal
  error : Option String

/-- Process one completed tool call (lines 219-259): resolve
`execution_tool_name = name_mapping.get(llm_tool_name, llm_tool_name)`,
parse the raw arguments, execute, and record the result. -/
def processCall (tmExec : String → JsonVal → ExecResult)
    (nameMapping : List (String × String)) (c : CompletedCall) : Outcome :=
  let execName := (lookupStr nameMapping c.fname).getD c.fname
  let args := parseArgs c.rawArgs
  let r := tmExec execName args
  ⟨c.id, execName, args, r.success, r.result, r.error⟩

/-- The dispatch loop: every call in the batch is processed in order and
contributes exactly one trace, regardless of the outcomes of the others
(`for i, tool_call in enumerate(streaming_tool_calls)` with
`self.traces.append(trace)` on every path). -/
def dispatchCalls (tmExec : String → JsonVal → ExecResult)
    (nameMapping : List (String × String)) : List CompletedCall → List Outcome
  | [] => []
  | c :: rest => processCall tmExec nameMapping c :: dispatchCalls tmExec nameMapping rest

/-!
Manual argument validation: `_manual_validate_tool_arguments` in
`diagnostics/cli_tools_diagnostic.py` (lines 253-297), replicating
`ToolManager._validate_tool_arguments`. All type rules in the table
declare `str`, so a rule is its `required` list plus the list of
parameters that must be Python `str` (the error message uses the type's
`__name__`, here always `str`).
-/
/-- One entry of the validation-rules table. -/
structure ValidationRule where
  required : List String
  strTyped : List String
deriving DecidableEq, Repr

/-- First-match lookup in the rules table (Python `tool_name in rules` /
`rules[tool_name]`). -/
def lookupRule : List (String × ValidationRule) → String → Option ValidationRule
  | [], _ => none
  | (k, v) :: rest, key => if k = key then some v else lookupRule rest key

/-- The fixed table of lines 261-266: exactly `read_query`, `write_query`,
`describe_table` and `create_table`. -/
def validationRules : List (String × ValidationRule) :=
  [("read_query", ⟨["query"], ["query"]⟩),
   ("write_query", ⟨["query"], ["query"]⟩),
   ("describe_table", ⟨["table_name"], ["table_name"]⟩),
   ("create_table", ⟨["query"], ["query"]⟩)]

/-- The dict `_manual_validate_tool_arguments` returns: `valid=True` with
a message, or `valid=False` with an error string. -/
inductive VResult : Type where
  | ok : String → VResult
  | fail : String → VResult
deriving DecidableEq, Repr

/-- The required-parameter loop (lines 276-287): the first parameter that
is absent yields the "Missing required parameter" error, the first one
present but falsy yields the "cannot be empty" error. -/
def checkRequired (toolName : String) (args : List (String × JsonVal)) :
    List String → Option String
  | [] => none
  | p :: rest =>
    match lookupField args p with
    | none =>
      some ("Missing required parameter '" ++ p ++ "' for tool '" ++ toolName ++ "'")
    | some v =>
      if v.falsy then
        some ("Parameter '" ++ p ++ "' cannot be empty for tool '" ++ toolName ++ "'")
      else checkRequired toolName args rest

/-- The type-check loop (lines 290-295): a present parameter that is not a
`str` yields the type error. -/
def checkTypes (toolName : String) (args : List (String × JsonVal)) :
    List String → Option String
  | [] => none
  | p :: rest =>
    match lookupField args p with
    | none => checkTypes toolName args rest
    | some v =>
      if v.isStr then checkTypes toolName args rest
      else
        some ("Parameter '" ++ p ++ "' must be of type str for tool '" ++ toolName ++ "'")

/-- `_manual_validate_tool_arguments(tool_name, arguments)`. -/
def manualValidate (toolName : String) (args : List (String × JsonVal)) : VResult :=
  match lookupRule validationRules toolName with
  | none => VResult.ok "No validation rules for this tool"
  | some rules =>
    match checkRequired toolName args rules.required with
    | some e => VResult.fail e
    | none =>
      match checkTypes toolName args rules.strTyped with
      | some e => VResult.fail e
      | none => VResult.ok "Validation passed"

/-!
Streaming tool-call structure validation and repair:
`_validate_streaming_tool_call` (lines 289-321) and
`_fix_tool_call_structure` (lines 323-358) in
`diagnostics/conversation_tools_diagnostic.py`.
-/
/-- Escape one character of a JSON string literal as `json.dumps` does
(for the characters these scripts use). -/
def dumpChar (c : Char) : String :=
  if c == '"' then "\\\""
  else if c == '\\' then "\\\\"
  else if c == '\n' then "\\n"
  else if c == '\t' then "\\t"
  else if c == '\r' then "\\r"
  else String.singleton c

/-- A JSON string literal as `json.dumps` renders it. -/
def dumpStrLit (s : String) : String :=
  "\"" ++ String.join (s.data.map dumpChar) ++ "\""

mutual

/-- Model of `json.dumps` with default separators. -/
def jsonDumps : JsonVal → String
  | .null => "null"
  | .boolean b => if b then "true" else "false"
  | .num q => if q.den == 1 then toString q.num else toString q
  | .str s => dumpStrLit s
  | .arr xs => "[" ++ dumpItems xs ++ "]"
  | .obj fs => "\x7b" ++ dumpFields fs ++ "\x7d"

/-- Comma-joined array elements. -/
def dumpItems : List JsonVal → String
  | [] => ""
  | [v] => jsonDumps v
  | v :: rest => jsonDumps v ++ ", " ++ dumpItems rest

/-- Comma-joined `"key": value` object members. -/
def dumpFields : List (String × JsonVal) → String
  | [] => ""
  | [(k, v)] => dumpStrLit k ++ ": " ++ jsonDumps v
  | (k, v) :: rest => dumpStrLit k ++ ": " ++ jsonDumps v ++ ", " ++ dumpFields rest

end

/-- The value found under `function["arguments"]`: the key may be absent,
hold Python `None`, a string, a dict, or some other value (whose `str()`
text is carried). -/
inductive ArgsField : Type where
  | absent : ArgsField
  | pynone : ArgsField
  | strv : String → ArgsField
  | dictv : List (String × JsonVal) → ArgsField
  | otherv : String → ArgsField

/-- The `function` dict of a streamed tool call: its optional `name`
entry and its arguments entry. -/
structure FnField where
  nameVal : Option String
  args : ArgsField

/-- A streamed tool-call dict: optional `id` and `type` entries and the
optional `function` dict. -/
structure ToolCallStruct where
  idKey : Option String
  typeKey : Option String
  fn : Option FnField

/-- `_validate_streaming_tool_call`: requires a `function` dict with a
truthy name; string arguments are JSON-checked only when
`args.strip()` is truthy (blank strings are skipped), dict arguments
pass, and any other arguments value fails. -/
def validateStreamingToolCall (tc : ToolCallStruct) : Bool :=
  match tc.fn with
  | none => false
  | some f =>
    match f.nameVal with
    | none => false
    | some n =>
      if n == "" then false
      else
        match f.args with
        | .absent => true
        | .strv s => if strBlank s then true else (jsonLoads s).isSome
        | .dictv _ => true
        | .pynone => false
        | .otherv _ => false

/-- `_fix_tool_call_structure`: default the `id` (to a hash-derived fresh
id, a parameter here) and the `type`, reject a missing `function` dict or
falsy name, replace absent or `None` arguments by `"\x7b\x7d"`, dump dict
arguments to JSON text, `str()` any other non-string value — an
already-string value (such as `""` or `" "`) is left unchanged — and
finally re-validate. -/
def fixToolCallStructure (freshId : String) (tc : ToolCallStruct) :
    Option ToolCallStruct :=
  let fixedId := tc.idKey.getD freshId
  let fixedType := tc.typeKey.getD "function"
  match tc.fn with
  | none => none
  | some f =>
    match f.nameVal with
    | none => none
    | some n =>
      if n == "" then none
      else
        let newArgs : ArgsField :=
          match f.args with
          | .absent => .strv "\x7b\x7d"
          | .pynone => .strv "\x7b\x7d"
          | .dictv d => .strv (jsonDumps (JsonVal.obj d))
          | .strv s => .strv s
          | .otherv r => .strv r
        let fixed : ToolCallStruct := ⟨some fixedId, some fixedType, some ⟨some n, newArgs⟩⟩
        if validateStreamingToolCall fixed then some fixed else none

/-!
Tool Catalog Adapter. `ToolManager.get_adapted_tools_for_llm` itself is
not among the repository's files — only its callers and the test stub
`DummyToolManager.get_adapted_tools_for_llm` in
`tests/mcp_cli/chat/test_chat_context.py` (which joins namespace and name
with an underscore and maps the result to `"namespace.name"`) — so the
sanitizing adapter is modelled from the spec, §4.1.
-/
/-- The provider-safe name characters `[A-Za-z0-9_-]`. -/
def isSafeChar (c : Char) : Bool := c.isAlphanum || c == '_' || c == '-'

/-- Modelled from the spec: the sanitizing transform of §4.1 strips
characters outside `[A-Za-z0-9_-]`. -/
def sanitizeName (s : String) : String := String.mk (s.data.filter isSafeChar)

/-- One MCP tool definition (the fields the adapter reads). -/
structure ToolDefinition where
  ns : String
  name : String
  description : String
deriving DecidableEq, Repr

/-- Modelled from the spec: `safe_name` joins `namespace` and `name` with
an underscore and sanitizes (§4.1); the test stub's
`f"\x7bt.namespace\x7d_\x7bt.name\x7d"` is this transform on names that
are already safe. -/
def safeNameOf (t : ToolDefinition) : String := sanitizeName (t.ns ++ "_" ++ t.name)

/-- The original namespaced name `f"\x7bt.namespace\x7d.\x7bt.name\x7d"`. -/
def dottedName (t : ToolDefinition) : String := t.ns ++ "." ++ t.name

/-- Python dict insertion: replace the value at an existing key (keeping
its position), otherwise append the pair. -/
def insertStr (m : List (String × String)) (k v : String) : List (String × String) :=
  if (lookupStr m k).isSome then
    m.map (fun p => if p.1 = k then (k, v) else p)
  else m ++ [(k, v)]

/-- Modelled from the spec: the name mapping built with one entry per
definition, `safe_name -> "namespace.name"`; on a safe-name collision the
later definition overwrites the earlier one, as a Python dict
comprehension does (the source handles collisions in no other way). -/
def buildNameMapping (ts : List ToolDefinition) : List (String × String) :=
  ts.foldl (fun m t => insertStr m (safeNameOf t) (dottedName t)) []

/-- Behaviour of the `json.loads` model on the argument texts the
diagnostics use: well-formed objects and scalars parse, truncated JSON and
concatenated objects ("Extra data") and the empty string are errors. -/
theorem jsonLoads_model_checks :
    jsonLoads "\"hello\"" = some (JsonVal.str "hello") ∧
    jsonLoads "\x7b\x7d" = some (JsonVal.obj []) ∧
    jsonLoads "\x7b\"query\": \"SELECT * FROM products LIMIT 10\"\x7d" =
      some (JsonVal.obj [("query", JsonVal.str "SELECT * FROM products LIMIT 10")]) ∧
    jsonLoads "\x7b\"query\": \"SELECT" = none ∧
    jsonLoads "\x7b\"query\": \"SELECT\"\x7d\x7b\"table\": \"products\"\x7d" = none ∧
    jsonLoads "42" = some (JsonVal.num 42) ∧
    jsonLoads "" = none ∧
    jsonLoads "[1, 2]" = some (JsonVal.arr [JsonVal.num 1, JsonVal.num 2]) ∧
    jsonLoads "\x7b\"a\": null, \"b\": true\x7d" =
      some (JsonVal.obj [("a", JsonVal.null), ("b", JsonVal.boolean true)]) := by
  exact ⟨rfl, rfl, rfl, rfl, rfl, rfl, rfl, rfl, rfl⟩

/-- Lookup after `replaceFirst` for a different identifier is unchanged. -/
theorem bufsOf_replaceFirst_ne (s : List AccCall) (tcId : String) (d : Delta)
    (X : String) (h : X ≠ tcId) :
    bufsOf (replaceFirst s tcId d) X = bufsOf s X := by
  induction s with
  | nil => rfl
  | cons c cs ih =>
    have htx : ¬ (tcId = X) := fun hx => h hx.symm
    by_cases hc : c.id = tcId
    · have hcx : ¬ (c.id = X) := fun hx => h (by rw [← hx, hc])
      simp [replaceFirst, hc, bufsOf, List.find?, hcx, htx]
    · by_cases hcx : c.id = X
      · simp [replaceFirst, hc, bufsOf, List.find?, hcx, htx, h]
      · simp only [replaceFirst, if_neg hc]
        simp only [bufsOf, List.find?] at ih ⊢
        simp [hcx, ih]

theorem bufsOf_replaceFirst_eq (s : List AccCall) (tcId : String) (d : Delta)
    (h : (s.find? (fun c => c.id = tcId)).isSome = true) :
    bufsOf (replaceFirst s tcId d) tcId =
      (bufsOf s tcId).map
        (fun p => (p.1 ++ (d.nameFrag.getD ""), p.2 ++ (d.argsFrag.getD ""))) := by
  induction s with
  | nil => simp [List.find?] at h
  | cons c cs ih =>
    by_cases hc : c.id = tcId
    · simp [replaceFirst, hc, bufsOf, List.find?]
    · have h' : (cs.find? (fun c => c.id = tcId)).isSome = true := by
        simpa [List.find?, hc] using h
      simp only [replaceFirst, if_neg hc]
      simp only [bufsOf, List.find?] at ih ⊢
      simp [hc, ih h']

/-- `find?` over an append when the first list has no match. -/
theorem find?_append_of_none {α : Type} {p : α → Bool} (l1 l2 : List α)
    (h : l1.find? p = none) : (l1 ++ l2).find? p = l2.find? p := by
  induction l1 with
  | nil => rfl
  | cons a l ih =>
    by_cases ha : p a
    · simp [List.find?, ha] at h
    · simp only [List.find?, ha] at h
      simp only [List.cons_append, List.find?]
      cases hpa : p a with
      | true => rw [hpa] at ha; exact absurd rfl ha
      | false => exact ih h

/-- `find?` over an append when the first list has a match. -/
theorem find?_append_of_some {α : Type} {p : α → Bool} (l1 l2 : List α) (c : α)
    (h : l1.find? p = some c) : (l1 ++ l2).find? p = some c := by
  induction l1 with
  | nil => simp [List.find?] at h
  | cons a l ih =>
    simp only [List.cons_append, List.find?] at h ⊢
    cases hpa : p a with
    | true => rw [hpa] at h; exact h
    | false => rw [hpa] at h; exact ih h

/-- Appending and creation of tool calls seen through `bufsOf`: one step of
the accumulation loop, for a delta that carries an explicit id `i`. -/
theorem bufsOf_accStep (s : List AccCall) (d : Delta) (i X : String)
    (hd : d.idKey = some i) :
    bufsOf (accStep s d) X =
      if i = X then
        match bufsOf s X with
        | some p => some (p.1 ++ (d.nameFrag.getD ""), p.2 ++ (d.argsFrag.getD ""))
        | none => some (d.nameFrag.getD "", d.argsFrag.getD "")
      else bufsOf s X := by
  unfold accStep
  rw [hd]
  simp only [Option.getD_some]
  cases hf : s.find? (fun c => c.id = i) with
  | some c0 =>
    have hfind : (s.find? (fun c => c.id = i)).isSome = true := by rw [hf]; rfl
    rw [if_pos (show (some c0).isSome = true from rfl)]
    by_cases hiX : i = X
    · subst hiX
      rw [if_pos rfl, bufsOf_replaceFirst_eq s i d hfind]
      have hb : bufsOf s i = some (c0.name, c0.args) := by
        simp [bufsOf, hf]
      rw [hb]
      rfl
    · rw [if_neg hiX, bufsOf_replaceFirst_ne s i d X (fun hx => hiX hx.symm)]
  | none =>
    rw [if_neg (show ¬ ((none : Option AccCall).isSome = true) by simp)]
    by_cases hiX : i = X
    · subst hiX
      rw [if_pos rfl]
      have hbn : bufsOf s i = none := by simp [bufsOf, hf]
      rw [hbn]
      simp only [bufsOf]
      rw [find?_append_of_none _ _ hf]
      simp [List.find?]
    · rw [if_neg hiX]
      simp only [bufsOf]
      cases hsf : s.find? (fun c => c.id = X) with
      | none =>
        rw [find?_append_of_none _ _ hsf]
        simp [List.find?, hiX]
      | some c =>
        rw [find?_append_of_some _ _ c hsf]

theorem strAppendEmpty (s : String) : s ++ "" = s := String.append_empty s

theorem strAppendAssoc (a b c : String) : a ++ b ++ c = a ++ (b ++ c) :=
  String.append_assoc a b c

/-- Accumulation from an arbitrary starting state: the buffers of call `X`
after folding a stream whose deltas all carry explicit ids are the starting
buffers extended by the concatenation of exactly `X`'s fragments. -/
theorem bufsOf_accumulate_from (ds : List Delta) :
    ∀ (s : List AccCall) (X : String),
      (∀ d ∈ ds, d.idKey.isSome = true) →
      bufsOf (ds.foldl accStep s) X =
        match bufsOf s X with
        | some p => some (p.1 ++ strConcat (fragsName ds X), p.2 ++ strConcat (fragsArgs ds X))
        | none =>
          if ds.any (fun d => d.idKey == some X) then
            some (strConcat (fragsName ds X), strConcat (fragsArgs ds X))
          else none := by
  induction ds with
  | nil =>
    intro s X _
    cases hb : bufsOf s X <;>
      simp [fragsName, fragsArgs, strConcat, hb, strAppendEmpty]
  | cons d ds ih =>
    intro s X h
    have hd0 : d.idKey.isSome = true := h d (by simp)
    obtain ⟨i, hi⟩ : ∃ i, d.idKey = some i := by
      cases hdk : d.idKey with
      | none => rw [hdk] at hd0; simp at hd0
      | some i => exact ⟨i, rfl⟩
    have hrest : ∀ x ∈ ds, x.idKey.isSome = true :=
      fun x hx => h x (List.mem_cons_of_mem d hx)
    simp only [List.foldl_cons]
    rw [ih (accStep s d) X hrest, bufsOf_accStep s d i X hi]
    by_cases hiX : i = X
    · subst hiX
      rw [if_pos rfl]
      have hkeep : (d.idKey = some i) := hi
      cases hb : bufsOf s i with
      | some p =>
        simp only [fragsName, fragsArgs, List.filter_cons, hkeep, decide_eq_true_eq]
        simp [strConcat, strAppendAssoc]
      | none =>
        simp only [fragsName, fragsArgs, List.filter_cons, List.any_cons, hkeep,
          decide_eq_true_eq]
        simp [strConcat, hi]
    · rw [if_neg hiX]
      have hdrop : ¬ (d.idKey = some X) := by
        rw [hi]
        intro hx
        exact hiX (Option.some.inj hx)
      cases hb : bufsOf s X with
      | some p =>
        simp only [fragsName, fragsArgs, List.filter_cons, hdrop]
        simp [hdrop]
      | none =>
        simp only [fragsName, fragsArgs, List.filter_cons, List.any_cons, hdrop]
        simp [hdrop, hi, hiX]

/-- C2 (amended): for every chunk stream in which every tool-call delta
carries an explicit `"id"` key, the finalized name and arguments buffers of
the call with identifier `X` equal the concatenation, in arrival order, of
exactly the name and arguments fragments delivered under identifier `X`;
fragments for other identifiers never affect `X`'s buffers. (The amendment
restricts to streams with explicit ids: an id-less delta is keyed
`unknown_<n>` and can alias an explicit id of that shape, see the
counterexample.) -/
theorem c2_independent_accumulation (ds : List Delta) (X : String)
    (h : ∀ d ∈ ds, d.idKey.isSome = true) :
    bufsOf (accumulate ds) X =
      if ds.any (fun d => d.idKey == some X) then
        some (strConcat (fragsName ds X), strConcat (fragsArgs ds X))
      else none := by
  have hmain := bufsOf_accumulate_from ds [] X h
  simpa [accumulate, bufsOf, List.find?] using hmain

/-- Witness for C2 at the spec's Scenario A: one call whose arguments
arrive split across three chunks, finalizing to the full JSON text. -/
theorem c2_independent_accumulation_witness :
    bufsOf (accumulate
      [⟨some "call_123", some "function", some "stdio_read_query", some "\x7b\"que"⟩,
       ⟨some "call_123", none, none, some "ry\": \"SELECT * FR"⟩,
       ⟨some "call_123", none, none, some "OM products LIMIT 10\"\x7d"⟩]) "call_123" =
      some ("stdio_read_query", "\x7b\"query\": \"SELECT * FROM products LIMIT 10\"\x7d") :=
  (c2_independent_accumulation _ "call_123" (by decide)).trans (by decide)

/-- Counterexample to C2 as stated: in the stream
`[{id: "unknown_1", name: "t", arguments: "x"}, {no id, arguments: "y"}]`
the id-less delta is keyed `unknown_<len(tool_calls)>` = `unknown_1` and is
merged into the explicit call `unknown_1`, so that call finalizes with
arguments `"xy"` although the only fragment delivered under identifier
`unknown_1` was `"x"`. -/
theorem c2_unknown_id_aliasing_cex :
    bufsOf (accumulate [⟨some "unknown_1", some "function", some "t", some "x"⟩,
        ⟨none, none, none, some "y"⟩]) "unknown_1" = some ("t", "xy") ∧
    strConcat (fragsArgs [⟨some "unknown_1", some "function", some "t", some "x"⟩,
        ⟨none, none, none, some "y"⟩] "unknown_1") = "x" := by
  constructor
  · decide
  · decide

/-- C10 (amended): a delta with no `"id"` key is assigned the synthetic
identifier `unknown_<n>` where `n` is the number of tool calls accumulated
so far, and it starts a new tool call (appended at the end, the other calls
unchanged) provided no already-accumulated call bears exactly that
identifier; when an explicit id of the shape `unknown_<n>` is already in
flight, the id-less delta is instead merged into it (see the
counterexample). -/
theorem c10_idless_new_call (s : List AccCall) (d : Delta)
    (hid : d.idKey = none)
    (hfresh : s.find? (fun c => c.id = unknownId s.length) = none) :
    accStep s d =
      s ++ [⟨unknownId s.length, d.typeKey.getD "function",
             d.nameFrag.getD "", d.argsFrag.getD ""⟩] := by
  unfold accStep
  rw [hid]
  simp [hfresh]

/-- Witness for C10: an id-less delta arriving while one call is in flight
is appended as a fresh call `unknown_1`. -/
theorem c10_idless_new_call_witness :
    accStep [⟨"call_A", "function", "stdio_list_tables", "\x7b\x7d"⟩]
        ⟨none, none, none, some "frag"⟩ =
      [⟨"call_A", "function", "stdio_list_tables", "\x7b\x7d"⟩,
       ⟨"unknown_1", "function", "", "frag"⟩] :=
  (c10_idless_new_call _ _ rfl (by decide)).trans (by decide)

/-- Counterexample to C10 as stated: with one call in flight under the
explicit id `unknown_1`, an id-less delta is keyed
`unknown_<len(tool_calls)>` = `unknown_1` and merged into that call, so the
stream of two deltas accumulates to a single call carrying both fragments —
this id-less delta did not start a new tool call. -/
theorem c10_idless_merge_cex :
    (accumulate [⟨some "unknown_1", some "function", some "a", some "x"⟩,
        ⟨none, none, some "b", some "y"⟩]).length = 1 ∧
    accumulate [⟨some "unknown_1", some "function", some "a", some "x"⟩,
        ⟨none, none, some "b", some "y"⟩] =
      [⟨"unknown_1", "function", "ab", "xy"⟩] := by
  constructor
  · decide
  · decide

theorem dispatchCalls_length (tmExec : String → JsonVal → ExecResult)
    (nameMapping : List (String × String)) (calls : List CompletedCall) :
    (dispatchCalls tmExec nameMapping calls).length = calls.length := by
  induction calls with
  | nil => rfl
  | cons c rest ih => simp [dispatchCalls, ih]

theorem dispatchCalls_get? (tmExec : String → JsonVal → ExecResult)
    (nameMapping : List (String × String)) (calls : List CompletedCall) (i : Nat) :
    (dispatchCalls tmExec nameMapping calls).get? i =
      (calls.get? i).map (processCall tmExec nameMapping) := by
  induction calls generalizing i with
  | nil => cases i <;> rfl
  | cons c rest ih =>
    cases i with
    | zero => rfl
    | succ j => simpa [dispatchCalls] using ih j

/-- C4: dispatch over a batch of N completed tool calls returns exactly N
outcomes, one per call in input order, and never short-circuits: the i-th
outcome is the full processing of the i-th call, independent of every
other call in the batch, so a failing call never prevents its siblings
from being executed and reported. -/
theorem c4_batch_yields_one_outcome_per_call
    (tmExec : String → JsonVal → ExecResult)
    (nameMapping : List (String × String)) (calls : List CompletedCall) :
    (dispatchCalls tmExec nameMapping calls).length = calls.length ∧
    ∀ i : Nat, (dispatchCalls tmExec nameMapping calls).get? i =
      (calls.get? i).map (processCall tmExec nameMapping) :=
  ⟨dispatchCalls_length tmExec nameMapping calls,
   fun i => dispatchCalls_get? tmExec nameMapping calls i⟩

/-- Counterexample to C5 as stated: for the call whose `arguments_json` is
the invalid JSON text `'\x7b"query": "SELECT'`, the dispatch loop catches
the decode error, coerces the arguments to `\x7b\x7d` and still invokes the
executor — here an executor that reports success, whose result reaches the
outcome, so the outcome is neither `success=False` nor execution-free. -/
theorem c5_parse_failure_still_executes_cex :
    jsonLoads "\x7b\"query\": \"SELECT" = none ∧
    (processCall (fun _ _ => ⟨true, some (JsonVal.str "ran"), none⟩) []
        ⟨"call_2", "read_query", RawArgs.strv "\x7b\"query\": \"SELECT"⟩).success = true ∧
    (processCall (fun _ _ => ⟨true, some (JsonVal.str "ran"), none⟩) []
        ⟨"call_2", "read_query", RawArgs.strv "\x7b\"query\": \"SELECT"⟩).argsPassed =
      JsonVal.obj [] := by
  exact ⟨rfl, rfl, rfl⟩

/-- C5 (amended): for every completed tool call whose `arguments_json`
string is non-blank and fails to parse as JSON, the dispatch loop catches
the `JSONDecodeError`, coerces the arguments to the empty object, still
invokes the tool executor with `\x7b\x7d`, records the executor's result as
the call's outcome, and continues with the next call (the call's outcome
sits at its own index and every other call is processed independently). -/
theorem c5_parse_failure_coerces_and_executes
    (tmExec : String → JsonVal → ExecResult)
    (nameMapping : List (String × String)) (c : CompletedCall) (s : String)
    (hs : c.rawArgs = RawArgs.strv s) (hb : strBlank s = false)
    (hp : jsonLoads s = none) :
    processCall tmExec nameMapping c =
      ⟨c.id, (lookupStr nameMapping c.fname).getD c.fname, JsonVal.obj [],
       (tmExec ((lookupStr nameMapping c.fname).getD c.fname) (JsonVal.obj [])).success,
       (tmExec ((lookupStr nameMapping c.fname).getD c.fname) (JsonVal.obj [])).result,
       (tmExec ((lookupStr nameMapping c.fname).getD c.fname) (JsonVal.obj [])).error⟩ ∧
    ∀ (calls : List CompletedCall) (i : Nat), calls.get? i = some c →
      (dispatchCalls tmExec nameMapping calls).get? i =
        some (processCall tmExec nameMapping c) := by
  constructor
  · simp [processCall, parseArgs, hs, hb, hp]
  · intro calls i hi
    rw [dispatchCalls_get? tmExec nameMapping calls i, hi]
    rfl

/-- Witness for C5 (amended) at the invalid JSON text of the diagnostic's
"Incomplete JSON" case, with an executor that fails on empty arguments. -/
theorem c5_parse_failure_coerces_and_executes_witness :
    processCall (fun n _ => ⟨false, none, some ("fail " ++ n)⟩) []
        ⟨"call_2", "read_query", RawArgs.strv "\x7b\"query\": \"SELECT"⟩ =
      ⟨"call_2", "read_query", JsonVal.obj [], false, none, some "fail read_query"⟩ :=
  (c5_parse_failure_coerces_and_executes (fun n _ => ⟨false, none, some ("fail " ++ n)⟩)
    [] ⟨"call_2", "read_query", RawArgs.strv "\x7b\"query\": \"SELECT"⟩
    "\x7b\"query\": \"SELECT" rfl rfl rfl).1.trans rfl

/-- C6: dispatch resolves the executed tool name as
`name_mapping.get(safe_name, safe_name)` — the mapped namespaced name when
an entry exists, otherwise the safe name unchanged — and an executor
failure is captured in that call's outcome (success `false`, the
executor's error text) rather than raised. -/
theorem c6_name_fallback_and_captured_failure
    (tmExec : String → JsonVal → ExecResult)
    (nameMapping : List (String × String)) (c : CompletedCall) :
    (lookupStr nameMapping c.fname = none →
      (processCall tmExec nameMapping c).execName = c.fname) ∧
    (∀ nn, lookupStr nameMapping c.fname = some nn →
      (processCall tmExec nameMapping c).execName = nn) ∧
    (∀ emsg, tmExec ((lookupStr nameMapping c.fname).getD c.fname)
          (parseArgs c.rawArgs) = ⟨false, none, some emsg⟩ →
      (processCall tmExec nameMapping c).success = false ∧
      (processCall tmExec nameMapping c).error = some emsg) := by
  refine ⟨fun h => ?_, fun nn h => ?_, fun emsg h => ?_⟩
  · simp [processCall, h]
  · simp [processCall, h]
  · constructor
    · simp [processCall, h]
    · simp [processCall, h]

/-- Witness for C6 at the spec's Scenario C: mapping
`\x7b"stdio_read_query": "stdio.read_query"\x7d`, a call named
`stdio_unknown_tool` resolves to itself, and the executor's tool-not-found
failure is captured in the outcome. -/
theorem c6_name_fallback_and_captured_failure_witness :
    (processCall (fun n _ => ⟨false, none, some ("Tool not found: " ++ n)⟩)
        [("stdio_read_query", "stdio.read_query")]
        ⟨"call_9", "stdio_unknown_tool", RawArgs.strv "\x7b\x7d"⟩).execName =
      "stdio_unknown_tool" ∧
    (processCall (fun n _ => ⟨false, none, some ("Tool not found: " ++ n)⟩)
        [("stdio_read_query", "stdio.read_query")]
        ⟨"call_9", "stdio_unknown_tool", RawArgs.strv "\x7b\x7d"⟩).success = false ∧
    (processCall (fun n _ => ⟨false, none, some ("Tool not found: " ++ n)⟩)
        [("stdio_read_query", "stdio.read_query")]
        ⟨"call_9", "stdio_unknown_tool", RawArgs.strv "\x7b\x7d"⟩).error =
      some "Tool not found: stdio_unknown_tool" :=
  ⟨(c6_name_fallback_and_captured_failure _ _ _).1 rfl,
   ((c6_name_fallback_and_captured_failure _ _ _).2.2
     "Tool not found: stdio_unknown_tool" rfl).1,
   ((c6_name_fallback_and_captured_failure _ _ _).2.2
     "Tool not found: stdio_unknown_tool" rfl).2⟩

/-- Counterexample to C7 as stated: the call whose `arguments_json` is the
bare JSON string `"hello"` parses to a non-object value, and the dispatch
loop passes that value — not an empty object — straight to the executor. -/
theorem c7_nonobject_passthrough_cex :
    jsonLoads "\"hello\"" = some (JsonVal.str "hello") ∧
    (processCall (fun _ _ => ⟨true, none, none⟩) []
        ⟨"call_3", "read_query", RawArgs.strv "\"hello\""⟩).argsPassed =
      JsonVal.str "hello" ∧
    (JsonVal.str "hello").isObj = false := by
  exact ⟨rfl, rfl, rfl⟩

/-- C7 (amended): whatever value a non-blank `arguments_json` string
parses to — object or not — is passed to the executor unchanged; only a
blank string, `None`, or a parse failure is coerced to the empty object.
The dispatch loop never coerces a successfully parsed non-object value. -/
theorem c7_parsed_value_passthrough
    (tmExec : String → JsonVal → ExecResult)
    (nameMapping : List (String × String)) (c : CompletedCall)
    (s : String) (v : JsonVal)
    (hs : c.rawArgs = RawArgs.strv s) (hb : strBlank s = false)
    (hp : jsonLoads s = some v) :
    (processCall tmExec nameMapping c).argsPassed = v := by
  simp [processCall, parseArgs, hs, hb, hp]

/-- Witness for C7 (amended) at the bare-string input `"hello"`. -/
theorem c7_parsed_value_passthrough_witness :
    (processCall (fun _ _ => ⟨true, none, none⟩) []
        ⟨"call_3", "read_query", RawArgs.strv "\"hello\""⟩).argsPassed =
      JsonVal.str "hello" :=
  c7_parsed_value_passthrough (fun _ _ => ⟨true, none, none⟩) []
    ⟨"call_3", "read_query", RawArgs.strv "\"hello\""⟩
    "\"hello\"" (JsonVal.str "hello") rfl rfl rfl

/-- Counterexample to C3 as stated: validating `\x7b"query": ""\x7d`
against `read_query` yields the "cannot be empty" error, not the claimed
byte-for-byte "Missing required parameter" message — the two strings
differ. -/
theorem c3_empty_value_message_cex :
    manualValidate "read_query" [("query", JsonVal.str "")] =
      VResult.fail "Parameter 'query' cannot be empty for tool 'read_query'" ∧
    VResult.fail "Parameter 'query' cannot be empty for tool 'read_query'" ≠
      VResult.fail "Missing required parameter 'query' for tool 'read_query'" := by
  exact ⟨rfl, by decide⟩

/-- C3 (amended): for every tool in the rules table (each declares one
required parameter `p`), an absent `p` yields exactly
`Missing required parameter '<p>' for tool '<name>'`, while a present but
empty-or-null (falsy) `p` yields exactly
`Parameter '<p>' cannot be empty for tool '<name>'`; only the absent case
uses the "Missing required parameter" format. -/
theorem c3_required_parameter_messages (toolName p : String)
    (ty : List String) (args : List (String × JsonVal))
    (hr : lookupRule validationRules toolName = some ⟨[p], ty⟩) :
    (lookupField args p = none →
      manualValidate toolName args =
        VResult.fail
          ("Missing required parameter '" ++ p ++ "' for tool '" ++ toolName ++ "'")) ∧
    (∀ v, lookupField args p = some v → v.falsy = true →
      manualValidate toolName args =
        VResult.fail
          ("Parameter '" ++ p ++ "' cannot be empty for tool '" ++ toolName ++ "'")) := by
  constructor
  · intro h
    simp [manualValidate, hr, checkRequired, h]
  · intro v hv hf
    simp [manualValidate, hr, checkRequired, hv, hf]

/-- Witness for C3 (amended) on `read_query`: absent `query` gives the
"Missing" message; `query` bound to JSON `null` gives the "cannot be
empty" message. -/
theorem c3_required_parameter_messages_witness :
    manualValidate "read_query" [] =
      VResult.fail "Missing required parameter 'query' for tool 'read_query'" ∧
    manualValidate "read_query" [("query", JsonVal.null)] =
      VResult.fail "Parameter 'query' cannot be empty for tool 'read_query'" :=
  ⟨(c3_required_parameter_messages "read_query" "query" ["query"] [] rfl).1 rfl,
   (c3_required_parameter_messages "read_query" "query" ["query"]
     [("query", JsonVal.null)] rfl).2 JsonVal.null rfl rfl⟩

/-- C9: the rules table covers exactly `read_query`, `write_query`,
`describe_table` and `create_table`; for every other tool name and every
arguments object, validation returns `valid=True` ("No validation rules
for this tool") — unknown tools are never rejected, regardless of their
declared schema. -/
theorem c9_unknown_tools_never_rejected (toolName : String)
    (args : List (String × JsonVal))
    (h1 : toolName ≠ "read_query") (h2 : toolName ≠ "write_query")
    (h3 : toolName ≠ "describe_table") (h4 : toolName ≠ "create_table") :
    manualValidate toolName args = VResult.ok "No validation rules for this tool" := by
  have hnone : lookupRule validationRules toolName = none := by
    simp [validationRules, lookupRule, Ne.symm h1, Ne.symm h2, Ne.symm h3, Ne.symm h4]
  simp [manualValidate, hnone]

/-- Witness for C9 at the unknown tool `list_tables` with a non-string
argument present. -/
theorem c9_unknown_tools_never_rejected_witness :
    manualValidate "list_tables" [("x", JsonVal.num 1)] =
      VResult.ok "No validation rules for this tool" :=
  c9_unknown_tools_never_rejected "list_tables" [("x", JsonVal.num 1)]
    (by decide) (by decide) (by decide) (by decide)

/-- C1 (code evaluated at the failing input): a streamed tool call whose
accumulated arguments buffer is the empty string — and likewise a
whitespace-only buffer — is NOT normalized to `"\x7b\x7d"` by the repair
path: `_fix_tool_call_structure` leaves the string unchanged (only absent
or `None` arguments become `"\x7b\x7d"`), `_validate_streaming_tool_call`
skips JSON-checking blank strings and accepts the call, and the retained
buffer does not parse as JSON at all, contradicting the claim that
finalization yields `"\x7b\x7d"` parsing to an empty object. -/
theorem c1_empty_args_not_normalized :
    fixToolCallStructure "call_1"
        ⟨some "call_abc", some "function", some ⟨some "read_query", ArgsField.strv ""⟩⟩ =
      some ⟨some "call_abc", some "function", some ⟨some "read_query", ArgsField.strv ""⟩⟩ ∧
    fixToolCallStructure "call_1"
        ⟨some "call_abc", some "function", some ⟨some "read_query", ArgsField.strv " "⟩⟩ =
      some ⟨some "call_abc", some "function", some ⟨some "read_query", ArgsField.strv " "⟩⟩ ∧
    ("" : String) ≠ "\x7b\x7d" ∧ (" " : String) ≠ "\x7b\x7d" ∧
    validateStreamingToolCall
        ⟨some "call_abc", some "function", some ⟨some "read_query", ArgsField.strv ""⟩⟩ =
      true ∧
    jsonLoads "" = none ∧
    fixToolCallStructure "call_1"
        ⟨some "call_abc", some "function", some ⟨some "read_query", ArgsField.absent⟩⟩ =
      some ⟨some "call_abc", some "function",
            some ⟨some "read_query", ArgsField.strv "\x7b\x7d"⟩⟩ := by
  exact ⟨rfl, rfl, by decide, by decide, rfl, rfl, rfl⟩

theorem lookupStr_append_of_none (m1 m2 : List (String × String)) (k : String)
    (h : lookupStr m1 k = none) : lookupStr (m1 ++ m2) k = lookupStr m2 k := by
  induction m1 with
  | nil => rfl
  | cons p rest ih =>
    by_cases hp : p.1 = k
    · simp [lookupStr, hp] at h
    · obtain ⟨k0, v0⟩ := p
      simp only [lookupStr] at h ⊢
      simp only at hp
      rw [if_neg hp] at h
      simpa [hp] using ih h

theorem lookupStr_map_replace (m : List (String × String)) (k v : String)
    (h : (lookupStr m k).isSome = true) :
    lookupStr (m.map (fun p => if p.1 = k then (k, v) else p)) k = some v := by
  induction m with
  | nil => simp [lookupStr] at h
  | cons p rest ih =>
    obtain ⟨k0, v0⟩ := p
    by_cases hp : k0 = k
    · subst hp
      have hhead : (fun p => if p.1 = k0 then (k0, v) else p) (k0, v0) = (k0, v) := by
        simp
      simp only [List.map_cons, hhead]
      simp [lookupStr]
    · simp only [lookupStr, if_neg hp] at h
      simp only [List.map_cons]
      simp only [if_neg hp]
      simp [lookupStr, hp, ih h]

theorem lookupStr_insertStr_self (m : List (String × String)) (k v : String) :
    lookupStr (insertStr m k v) k = some v := by
  unfold insertStr
  cases hl : lookupStr m k with
  | none =>
    rw [if_neg (show ¬ ((none : Option String).isSome = true) by simp)]
    rw [lookupStr_append_of_none m _ k hl]
    simp [lookupStr]
  | some v0 =>
    rw [if_pos (show (some v0).isSome = true from rfl)]
    exact lookupStr_map_replace m k v (by rw [hl]; rfl)

theorem lookupStr_append_of_some (m1 m2 : List (String × String)) (k v : String)
    (h : lookupStr m1 k = some v) : lookupStr (m1 ++ m2) k = some v := by
  induction m1 with
  | nil => simp [lookupStr] at h
  | cons p rest ih =>
    obtain ⟨k0, v0⟩ := p
    simp only [List.cons_append, lookupStr] at h ⊢
    by_cases hp : k0 = k
    · rw [if_pos hp] at h ⊢
      exact h
    · rw [if_neg hp] at h ⊢
      exact ih h

theorem lookupStr_map_replace_ne (m : List (String × String)) (k v k2 : String)
    (h : k2 ≠ k) :
    lookupStr (m.map (fun p => if p.1 = k then (k, v) else p)) k2 = lookupStr m k2 := by
  induction m with
  | nil => rfl
  | cons p rest ih =>
    obtain ⟨k0, v0⟩ := p
    by_cases hp : k0 = k
    · subst hp
      rw [List.map_cons,
        show (if (k0, v0).1 = k0 then (k0, v) else (k0, v0)) = (k0, v) from if_pos rfl]
      simp only [lookupStr]
      rw [if_neg (fun hx => h hx.symm), if_neg (fun hx => h hx.symm)]
      exact ih
    · rw [List.map_cons,
        show (if (k0, v0).1 = k then (k, v) else (k0, v0)) = (k0, v0) from if_neg hp]
      simp only [lookupStr]
      by_cases hk2 : k0 = k2
      · rw [if_pos hk2, if_pos hk2]
      · rw [if_neg hk2, if_neg hk2]
        exact ih

theorem lookupStr_insertStr_ne (m : List (String × String)) (k v k2 : String)
    (h : k2 ≠ k) : lookupStr (insertStr m k v) k2 = lookupStr m k2 := by
  unfold insertStr
  by_cases hl : (lookupStr m k).isSome = true
  · rw [if_pos hl]
    exact lookupStr_map_replace_ne m k v k2 h
  · rw [if_neg hl]
    cases hx2 : lookupStr m k2 with
    | some v2 => exact lookupStr_append_of_some m _ k2 v2 hx2
    | none =>
      rw [lookupStr_append_of_none m _ k2 hx2]
      have hkk : ¬ (k = k2) := fun hx => h hx.symm
      simp [lookupStr, hkk]

theorem buildNameMapping_untouched (ts : List ToolDefinition) :
    ∀ (m : List (String × String)) (k : String),
      (∀ t ∈ ts, safeNameOf t ≠ k) →
      lookupStr (ts.foldl (fun m t => insertStr m (safeNameOf t) (dottedName t)) m) k =
        lookupStr m k := by
  induction ts with
  | nil => intro m k _; rfl
  | cons t rest ih =>
    intro m k h
    simp only [List.foldl_cons]
    rw [ih _ k (fun x hx => h x (List.mem_cons_of_mem t hx))]
    exact lookupStr_insertStr_ne m _ _ k
      (fun hx => h t (List.mem_cons_self t rest) hx.symm)

theorem buildNameMapping_from (ts : List ToolDefinition) :
    ∀ (m : List (String × String)),
      List.Pairwise (fun a b => safeNameOf a ≠ safeNameOf b) ts →
      ∀ t ∈ ts,
        lookupStr (ts.foldl (fun m t => insertStr m (safeNameOf t) (dottedName t)) m)
          (safeNameOf t) = some (dottedName t) := by
  induction ts with
  | nil =>
    intro m _ t ht
    simp at ht
  | cons t0 rest ih =>
    intro m hpw t ht
    simp only [List.foldl_cons]
    rcases List.mem_cons.mp ht with h0 | hmem
    · subst h0
      rw [buildNameMapping_untouched rest _ (safeNameOf t)
        (fun x hx => Ne.symm ((List.pairwise_cons.mp hpw).1 x hx))]
      exact lookupStr_insertStr_self m _ _
    · exact ih _ (List.pairwise_cons.mp hpw).2 t hmem

/-- C8 (amended): when the sanitized safe names of the adapted
ToolDefinitions are pairwise distinct (no sanitization collision), the
name mapping sends every definition's safe name back to its
`"namespace.name"` string. On a collision the later definition's dotted
name overwrites the earlier one's, breaking the round trip for the
earlier definition (see the counterexample); the source handles
collisions in no other way. -/
theorem c8_name_roundtrip (ts : List ToolDefinition)
    (hinj : List.Pairwise (fun a b => safeNameOf a ≠ safeNameOf b) ts) :
    ∀ t ∈ ts, lookupStr (buildNameMapping ts) (safeNameOf t) = some (dottedName t) :=
  buildNameMapping_from ts [] hinj

/-- Witness for C8 (amended) at the two tools of the chat-context test
(`srv1.tool1`, `srv2.tool2`). -/
theorem c8_name_roundtrip_witness :
    lookupStr (buildNameMapping
        [⟨"srv1", "tool1", "demo-1"⟩, ⟨"srv2", "tool2", "demo-2"⟩])
      (safeNameOf ⟨"srv1", "tool1", "demo-1"⟩) = some "srv1.tool1" :=
  c8_name_roundtrip [⟨"srv1", "tool1", "demo-1"⟩, ⟨"srv2", "tool2", "demo-2"⟩]
    (by decide) ⟨"srv1", "tool1", "demo-1"⟩ (by decide)

/-- Counterexample to C8 as stated: the definitions `a.b_c` and `a_b.c`
both sanitize to the safe name `a_b_c`; the mapping keeps only the later
dotted name `a_b.c`, so the round trip fails for the earlier definition,
whose dotted name is `a.b_c`. -/
theorem c8_collision_breaks_roundtrip_cex :
    safeNameOf ⟨"a", "b_c", ""⟩ = "a_b_c" ∧
    safeNameOf ⟨"a_b", "c", ""⟩ = "a_b_c" ∧
    lookupStr (buildNameMapping [⟨"a", "b_c", ""⟩, ⟨"a_b", "c", ""⟩])
      (safeNameOf ⟨"a", "b_c", ""⟩) = some "a_b.c" ∧
    dottedName ⟨"a", "b_c", ""⟩ = "a.b_c" ∧
    ("a_b.c" : String) ≠ "a.b_c" := by
  exact ⟨rfl, rfl, rfl, rfl, by decide⟩
